import Mathlib

/-!
Shallow embedding of the conversation-analysis engine in
`analyze_conversations.py` (class `ConversationAnalyzer`), together with
proofs checking the specification's claims against it.

Modelling conventions:
* JSON-ish message `content` values are modelled by `JVal`; Python truthiness
  by `pyTruthy`, Python `str()` by `pyStr` (container rendering follows
  Python `repr` in shape; its exact text is never load-bearing).
* Machine timestamps are `Int` seconds.  `datetime.fromtimestamp` converts in
  the host's local timezone; the embedding fixes the zone to UTC (the spec
  flags the timezone as implementation-defined, and no claim depends on it).
* A dict field that may be absent is an `Option`; `create_time` may also be
  present with a JSON `null` value, hence `Option (Option Int)`.
* Python `round` (banker's rounding) is modelled on `ℚ` by `roundHalfEven`.
* Python's stable `sorted` / `Counter.most_common` are modelled by the stable
  insertion sort `pySorted`.
-/

/-- JSON-like value for the `content` field of a message. -/
inductive JVal where
  | jnull
  | jbool (b : Bool)
  | jint (n : Int)
  | jstr (s : String)
  | jarr (xs : List JVal)
  | jobj (fs : List (String × JVal))

/-- Python truthiness of a JSON value. -/
def pyTruthy : JVal → Bool
  | .jnull => false
  | .jbool b => b
  | .jint n => n != 0
  | .jstr s => !s.isEmpty
  | .jarr xs => !xs.isEmpty
  | .jobj fs => !fs.isEmpty

/-- The ASCII apostrophe used by Python `repr` for strings. -/
def pyQuote : String := String.singleton (Char.ofNat 39)

mutual
/-- Python `repr` of a JSON value (shape-faithful rendering). -/
def pyRepr : JVal → String
  | .jnull => "None"
  | .jbool true => "True"
  | .jbool false => "False"
  | .jint n => toString n
  | .jstr s => pyQuote ++ s ++ pyQuote
  | .jarr xs => "[" ++ pyReprList xs ++ "]"
  | .jobj fs => "\x7b" ++ pyReprFields fs ++ "\x7d"

/-- Comma-joined `repr` of list elements. -/
def pyReprList : List JVal → String
  | [] => ""
  | [x] => pyRepr x
  | x :: y :: xs => pyRepr x ++ ", " ++ pyReprList (y :: xs)

/-- Comma-joined `repr` of dict entries. -/
def pyReprFields : List (String × JVal) → String
  | [] => ""
  | [(k, v)] => pyQuote ++ k ++ pyQuote ++ ": " ++ pyRepr v
  | (k, v) :: f :: fs => pyQuote ++ k ++ pyQuote ++ ": " ++ pyRepr v ++ ", " ++ pyReprFields (f :: fs)
end

/-- Python `str()` of a JSON value: strings print bare, containers via `repr`. -/
def pyStr : JVal → String
  | .jstr s => s
  | v => pyRepr v

/-- `message.get("author", \x7b\x7d).get("role", "")` data. -/
structure Author where
  role : Option String

/-- A message dict: only the fields the engine reads. -/
structure Message where
  author : Option Author
  content : Option JVal

/-- A node of a conversation's `mapping`. -/
structure Node where
  message : Option Message

/-- A conversation record.  `create_time`'s outer `Option` is key presence,
the inner one distinguishes a JSON `null` from a number. -/
structure Conversation where
  conversation_id : Option String
  title : Option String
  create_time : Option (Option Int)
  mapping : List (String × Node)

/-- `message.get("author", \x7b\x7d); author.get("role", "")`. -/
def roleOf (m : Message) : String :=
  ((m.author.getD { role := none }).role).getD ""

/-- Dict lookup on a JSON object's field list (first match). -/
def lookupField (fs : List (String × JVal)) (k : String) : Option JVal :=
  ((fs.find? (fun p => p.1 == k)).map (fun p => p.2))

/-- `ConversationAnalyzer.extract_text_from_message`: if the message is falsy
or has no `content` key, return `""`; if the content is a dict whose `parts`
key holds a list, space-join the `str()` of its truthy elements; otherwise
`str(content)` when the content is truthy, else `""`. -/
def extract_text_from_message : Option Message → String
  | none => ""
  | some msg =>
    match msg.content with
    | none => ""
    | some content =>
      match content with
      | .jobj fs =>
        (match lookupField fs "parts" with
         | some (.jarr parts) =>
             " ".intercalate ((parts.filter pyTruthy).map pyStr)
         | _ => if pyTruthy content then pyStr content else "")
      | _ => if pyTruthy content then pyStr content else ""

/-- The `parts` list of a structured content object, when one exists. -/
def specPartsList : JVal → Option (List JVal)
  | .jobj fs =>
    (match lookupField fs "parts" with
     | some (.jarr ps) => some ps
     | _ => none)
  | _ => none

/-- Spec-side restatement of the §4.1 text-extraction contract, written from
the spec's words: the single-space join of the string forms of the non-empty
`parts` entries when a parts list exists, otherwise the string form of the
content when it is truthy, otherwise the empty string. -/
def spec_extract_text : Option JVal → String
  | none => ""
  | some c =>
    match specPartsList c with
    | some ps => " ".intercalate ((ps.filter pyTruthy).map pyStr)
    | none => if pyTruthy c then pyStr c else ""

/-! ## Python-semantics utilities: rounding, substring test, lowercasing,
stable sort, counters and set size. -/

/-- Round a rational to the nearest integer, ties to even — Python `round`. -/
def roundHalfEven (q : ℚ) : Int :=
  let f := ⌊q⌋
  let r := q - (f : ℚ)
  if r < 1/2 then f
  else if 1/2 < r then f + 1
  else if f % 2 = 0 then f else f + 1

/-- Python `round(x, 1)` on rationals. -/
def pyRound1 (q : ℚ) : ℚ := (roundHalfEven (q * 10) : ℚ) / 10

/-- Python `round(x, 2)` on rationals. -/
def pyRound2 (q : ℚ) : ℚ := (roundHalfEven (q * 100) : ℚ) / 100

/-- Does `needle` occur as a contiguous run inside the character list? -/
def pyInChars (needle : List Char) : List Char → Bool
  | [] => needle.isEmpty
  | c :: rest => needle.isPrefixOf (c :: rest) || pyInChars needle rest

/-- Python's `needle in hay` on strings (substring containment). -/
def pyIn (needle hay : String) : Bool := pyInChars needle.data hay.data

/-- Python `str.lower` (ASCII case fold; the engine's keywords are ASCII/CJK). -/
def pyLower (s : String) : String := String.mk (s.data.map Char.toLower)

/-- Stable insertion of `x` after every kept element `y` with `le y x`. -/
def insertSorted {α} (le : α → α → Bool) (x : α) : List α → List α
  | [] => [x]
  | y :: ys => if le y x then y :: insertSorted le x ys else x :: y :: ys

/-- Python's stable `sorted` with a boolean "y may stay before x" relation. -/
def pySorted {α} (le : α → α → Bool) (l : List α) : List α :=
  l.foldl (fun acc x => insertSorted le x acc) []

/-- `counter[k] += c` on an insertion-ordered association list. -/
def bumpBy {α} [BEq α] (l : List (α × Nat)) (k : α) (c : Nat) : List (α × Nat) :=
  match l with
  | [] => [(k, c)]
  | (k0, v) :: rest => if k0 == k then (k0, v + c) :: rest else (k0, v) :: bumpBy rest k c

/-- `defaultdict(int)` read: the stored count, or 0. -/
def lookupD (l : List (Nat × Nat)) (k : Nat) : Nat :=
  match l.find? (fun p => p.1 == k) with
  | some p => p.2
  | none => 0

/-- The keys of an association list, in order. -/
def keysOf {α β} (l : List (α × β)) : List α := l.map (fun p => p.1)

/-- The sum of the values of an association list. -/
def sumV {α} (l : List (α × Nat)) : Nat := (l.map (fun p => p.2)).sum

/-- Boolean membership via `==` (Python `in` on a list/set build). -/
def pyMemB {α} [BEq α] (x : α) : List α → Bool
  | [] => false
  | y :: ys => x == y || pyMemB x ys

/-- `len(set(xs))`: the number of distinct elements. -/
def pySetSize {α} [BEq α] : List α → Nat
  | [] => 0
  | x :: rest => if pyMemB x rest then pySetSize rest else pySetSize rest + 1

/-- `Counter(ws)`: insertion-ordered counts. -/
def counterOf (ws : List String) : List (String × Nat) :=
  ws.foldl (fun a w => bumpBy a w 1) []

/-- `Counter.most_common(k)`: stable sort by count descending, take `k`. -/
def mostCommon (l : List (String × Nat)) (k : Nat) : List String :=
  ((pySorted (fun a b => decide (b.2 ≤ a.2)) l).take k).map (fun p => p.1)

/-! ## Time conversion (`datetime.fromtimestamp`, fixed to UTC).

`civilFromDays` is the standard days-to-Gregorian-date algorithm. -/

/-- Days since the Unix epoch of a timestamp (floor division). -/
def dayNumOf (t : Int) : Int := t.fdiv 86400

/-- `dt.hour` (0–23). -/
def hourOf (t : Int) : Nat := ((t.fdiv 3600).emod 24).toNat

/-- `dt.weekday()` (Monday=0..Sunday=6); 1970-01-01 was a Thursday. -/
def weekdayOf (t : Int) : Nat := ((t.fdiv 86400 + 3).emod 7).toNat

/-- Gregorian (year, month, day) of a day number. -/
def civilFromDays (z0 : Int) : Int × Nat × Nat :=
  let z := z0 + 719468
  let era : Int := z.fdiv 146097
  let doe : Nat := (z - era * 146097).toNat
  let yoe : Nat := (doe - doe / 1460 + doe / 36524 - doe / 146096) / 365
  let y : Int := (yoe : Int) + era * 400
  let doy : Nat := doe - (365 * yoe + yoe / 4 - yoe / 100)
  let mp : Nat := (5 * doy + 2) / 153
  let d : Nat := doy - (153 * mp + 2) / 5 + 1
  let m : Nat := if mp < 10 then mp + 3 else mp - 9
  (if m ≤ 2 then y + 1 else y, m, d)

/-- Zero-padded two-digit rendering (`f"\x7bn:02d\x7d"`). -/
def pad2 (n : Nat) : String := if n < 10 then "0" ++ toString n else toString n

/-- `f"\x7bdt.year\x7d-\x7bdt.month:02d\x7d"`, also `strftime("%Y-%m")`. -/
def monthKey (t : Int) : String :=
  let c := civilFromDays (dayNumOf t)
  toString c.1 ++ "-" ++ pad2 c.2.1

/-- `strftime("%Y-%m-%d")` / `str(dt.date())` of a day number. -/
def dateStrOfDay (day : Int) : String :=
  let c := civilFromDays day
  toString c.1 ++ "-" ++ pad2 c.2.1 ++ "-" ++ pad2 c.2.2

/-! ## Archive traversal helpers shared by the passes. -/

/-- `create_time = conv.get("create_time"); if create_time:` — the timestamp
when the key is present with a truthy (non-null, nonzero) number. -/
def truthyTimeVal (c : Conversation) : Option Int :=
  match c.create_time with
  | some (some n) => if n != 0 then some n else none
  | _ => none

/-- The truthy timestamps of an archive, in archive order. -/
def truthyTimes (convs : List Conversation) : List Int :=
  convs.filterMap truthyTimeVal

/-- The messages of a conversation's `mapping`, skipping the reserved
`"client-created-root"` node and nodes without a (truthy) message. -/
def convMessages (c : Conversation) : List Message :=
  c.mapping.filterMap (fun p => if p.1 == "client-created-root" then none else p.2.message)

/-- All messages of the archive, in archive/mapping order. -/
def allMessages (convs : List Conversation) : List Message :=
  (convs.map convMessages).flatten

/-- A conversation's user-turn count (user-authored messages). -/
def userTurns (c : Conversation) : Nat :=
  (convMessages c).countP (fun m => roleOf m == "user")

/-- The non-empty extracted texts of a conversation's user messages. -/
def userTexts (c : Conversation) : List String :=
  (convMessages c).filterMap (fun m =>
    if roleOf m == "user" then
      (let t := extract_text_from_message (some m)
       if t.isEmpty then none else some t)
    else none)

/-! ## Pass 1: `analyze_summary_stats`. -/

/-- The `most_active_date` sub-record of the summary. -/
structure MostActiveDate where
  date : Option String
  count : Nat

/-- The `most_active_hour` sub-record of the summary. -/
structure MostActiveHour where
  hour : Option Nat
  count : Nat

/-- The `summary_stats` report key. -/
structure SummaryStats where
  total_conversations : Nat
  total_messages : Nat
  total_user_characters : Nat
  total_assistant_characters : Nat
  total_hours_span : ℚ
  most_active_date : MostActiveDate
  most_active_hour : MostActiveHour
  books_equivalent : List (String × ℚ)

/-- Python `max(items, key=lambda x: x[1])`: the first pair attaining the
maximum count (later pairs replace only on strictly greater count). -/
def firstMaxPair {α} (l : List (α × Nat)) : Option (α × Nat) :=
  match l with
  | [] => none
  | p :: rest => some (rest.foldl (fun best q => if best.2 < q.2 then q else best) p)

/-- `ConversationAnalyzer.analyze_summary_stats`: message/character totals,
time span, most active date and hour, and the book-size comparison
(`BOOK_SIZES`).  The loop's independent accumulators are written as
independent folds over the same traversal. -/
def analyze_summary_stats (convs : List Conversation) : SummaryStats :=
  let msgs := allMessages convs
  let userMsgs := msgs.filter (fun m => roleOf m == "user")
  let asstMsgs := msgs.filter (fun m => roleOf m == "assistant")
  let total_user_chars := (userMsgs.map (fun m => (extract_text_from_message (some m)).length)).sum
  let total_assistant_chars := (asstMsgs.map (fun m => (extract_text_from_message (some m)).length)).sum
  let ts := truthyTimes convs
  let date_counts := ts.foldl (fun d t => bumpBy d (dayNumOf t) 1) []
  let hour_counts := ts.foldl (fun d t => bumpBy d (hourOf t) 1) []
  let total_hours : ℚ :=
    match ts with
    | [] => pyRound1 0
    | t :: rest => pyRound1 ((((rest.foldl max t) - (rest.foldl min t) : Int) : ℚ) / 3600)
  { total_conversations := convs.length,
    total_messages := userMsgs.length,
    total_user_characters := total_user_chars,
    total_assistant_characters := total_assistant_chars,
    total_hours_span := total_hours,
    most_active_date :=
      match firstMaxPair date_counts with
      | some (d, c) => { date := some (dateStrOfDay d), count := c }
      | none => { date := none, count := 0 },
    most_active_hour :=
      match firstMaxPair hour_counts with
      | some (h, c) => { hour := some h, count := c }
      | none => { hour := none, count := 0 },
    books_equivalent :=
      [("三体", pyRound1 ((total_assistant_chars : ℚ) / 200000)),
       ("哈利波特", pyRound1 ((total_assistant_chars : ℚ) / 100000)),
       ("小王子", pyRound1 ((total_assistant_chars : ℚ) / 20000))] }

/-! ## Pass 2: `analyze_brain_activity_heatmap`. -/

/-- The `brain_activity_heatmap` report key: sparse `(hour, weekday, count)`
cells plus the two derived distributions. -/
structure BrainActivityHeatmap where
  heatmap_data : List (Nat × Nat × Nat)
  hour_distribution : List (Nat × Nat)
  weekday_distribution : List (String × Nat)

/-- The fixed weekday display names. -/
def weekday_names : List String := ["周一", "周二", "周三", "周四", "周五", "周六", "周日"]

/-- The sparse `(hour, weekday) → count` accumulator over truthy timestamps. -/
def heatCells (ts : List Int) : List ((Nat × Nat) × Nat) :=
  ts.foldl (fun d t => bumpBy d (hourOf t, weekdayOf t) 1) []

/-- The `[[hour, weekday, count], ...]` reshaping of the sparse cells. -/
def heatmapArray (convs : List Conversation) : List (Nat × Nat × Nat) :=
  (heatCells (truthyTimes convs)).map (fun e => (e.1.1, e.1.2, e.2))

/-- `hour_distribution`: per-hour totals accumulated from the cells. -/
def hourDistribution (convs : List Conversation) : List (Nat × Nat) :=
  (heatmapArray convs).foldl (fun d e => bumpBy d e.1 e.2.2) []

/-- The per-weekday totals accumulated from the cells. -/
def weekdayCounts (convs : List Conversation) : List (Nat × Nat) :=
  (heatmapArray convs).foldl (fun d e => bumpBy d e.2.1 e.2.2) []

/-- `ConversationAnalyzer.analyze_brain_activity_heatmap`. -/
def analyze_brain_activity_heatmap (convs : List Conversation) : BrainActivityHeatmap :=
  { heatmap_data := heatmapArray convs,
    hour_distribution := hourDistribution convs,
    weekday_distribution :=
      (List.range 7).map (fun i => (weekday_names.getD i "", lookupD (weekdayCounts convs) i)) }

/-! ## Pass 4: `analyze_deep_dive_index`. -/

/-- One entry of `top_deep_conversations`. -/
structure ConvTurns where
  conversation_id : String
  title : String
  turns : Nat

/-- The `deep_dive_index` report key (`distribution` flattened into fields). -/
structure DeepDiveIndex where
  total_conversations : Nat
  average_turns : ℚ
  shallow_1_2_turns : Nat
  medium_3_9_turns : Nat
  deep_10plus_turns : Nat
  max_turns : Nat
  top_deep_conversations : List ConvTurns

/-- `ConversationAnalyzer.analyze_deep_dive_index`: conversations with zero
user turns are skipped; the rest are bucketed by turn count. -/
def analyze_deep_dive_index (convs : List Conversation) : DeepDiveIndex :=
  let turn_counts := (convs.map userTurns).filter (fun t => decide (0 < t))
  let conversation_turns := convs.filterMap (fun c =>
    let t := userTurns c
    if 0 < t then
      some { conversation_id := c.conversation_id.getD "",
             title := c.title.getD "", turns := t : ConvTurns }
    else none)
  { total_conversations := turn_counts.length,
    average_turns :=
      match turn_counts with
      | [] => 0
      | _ :: _ => pyRound1 ((turn_counts.sum : ℚ) / (turn_counts.length : ℚ)),
    shallow_1_2_turns := turn_counts.countP (fun t => decide (1 ≤ t) && decide (t ≤ 2)),
    medium_3_9_turns := turn_counts.countP (fun t => decide (3 ≤ t) && decide (t ≤ 9)),
    deep_10plus_turns := turn_counts.countP (fun t => decide (10 ≤ t)),
    max_turns :=
      match turn_counts with
      | [] => 0
      | t :: rest => rest.foldl max t,
    top_deep_conversations :=
      (pySorted (fun x y => decide (y.turns ≤ x.turns)) conversation_turns).take 5 }

/-! ## Pass 5: `analyze_directors_ratio` (reads the summary's counts). -/

/-- The `directors_ratio` report key. -/
structure DirectorsRatio where
  input_chars : Nat
  output_chars : Nat
  ratio : ℚ
  ratio_display : String
  persona_type : String
  description : String

/-- `ConversationAnalyzer.analyze_directors_ratio`: ratio of assistant to
user characters (0 when no user characters) and the persona thresholds.
The float display string is rendered from the rational. -/
def analyze_directors_ratio (stats : SummaryStats) : DirectorsRatio :=
  let u := stats.total_user_characters
  let a := stats.total_assistant_characters
  let ratio : ℚ := if 0 < u then pyRound2 ((a : ℚ) / (u : ℚ)) else 0
  { input_chars := u,
    output_chars := a,
    ratio := ratio,
    ratio_display := "1:" ++ toString ratio,
    persona_type :=
      if 8 ≤ ratio then "学习者" else if 3 ≤ ratio then "平衡型" else "创作者",
    description :=
      if 8 ≤ ratio then "你在大量吸收信息，是一个积极的学习者"
      else if 3 ≤ ratio then "你与 AI 的互动比较平衡"
      else "你提供了大量上下文，更像是在与 AI 协作创作" }

/-! ## Pass 7: `analyze_marathon_session`. -/

/-- The `marathon_session` report value (absent when no user turns exist). -/
structure MarathonSession where
  title : String
  date : String
  turns : Nat
  conversation_id : String

/-- The loop of `analyze_marathon_session`: keep the first conversation whose
user-turn count strictly exceeds the best so far. -/
def marathonGo : List Conversation → Nat → Option Conversation → Nat × Option Conversation
  | [], m, best => (m, best)
  | c :: rest, m, best =>
    if m < userTurns c then marathonGo rest (userTurns c) (some c)
    else marathonGo rest m best

/-- The record built for the winning conversation (placeholders for a missing
title / timestamp, per the source). -/
def marathonRecord (c : Conversation) (turns : Nat) : MarathonSession :=
  { title := c.title.getD "未命名对话",
    date :=
      match truthyTimeVal c with
      | some t => dateStrOfDay (dayNumOf t)
      | none => "未知",
    turns := turns,
    conversation_id := c.conversation_id.getD "" }

/-- `ConversationAnalyzer.analyze_marathon_session`. -/
def analyze_marathon_session (convs : List Conversation) : Option MarathonSession :=
  match marathonGo convs 0 none with
  | (_, none) => none
  | (mx, some c) => some (marathonRecord c mx)

/-- Spec-side selection rule of §4.8: the first conversation in archive order
attaining the maximum user-turn count, absent when no conversation has a
user turn. -/
def maxUserTurns (l : List Conversation) : Nat :=
  l.foldr (fun c m => max (userTurns c) m) 0

/-- Spec-side: first conversation attaining `maxUserTurns`, if any turns. -/
def firstMaxConv (l : List Conversation) : Option Conversation :=
  if maxUserTurns l = 0 then none
  else l.find? (fun c => userTurns c == maxUserTurns l)

/-! ## Pass 8: `analyze_monthly_focus`. -/

/-- One entry of the `monthly_focus` report list. -/
structure MonthlyTopic where
  month : String
  top_keywords : List String
  conversation_count : Nat

/-- `re.findall` chunking of one maximal CJK run under the pattern
`[一-鿿]\x7b2,4\x7d`: greedy 4-character matches, a 2–3-character
remainder kept, a 1-character remainder dropped. -/
def cjkChunks (run : List Char) : List String :=
  if h : 4 ≤ run.length then String.mk (run.take 4) :: cjkChunks (run.drop 4)
  else if 2 ≤ run.length then [String.mk run] else []
termination_by run.length
decreasing_by simp [List.length_drop]; omega

/-- Is the character in the CJK range of the engine's regexes? -/
def isCJK (c : Char) : Bool := 0x4e00 ≤ c.toNat && c.toNat ≤ 0x9fff

/-- One left-to-right scan for `re.findall`: `run` is the current maximal CJK
run, reversed. -/
def cjkScan (run : List Char) : List Char → List String
  | [] => cjkChunks run.reverse
  | c :: rest =>
    if isCJK c then cjkScan (c :: run) rest
    else cjkChunks run.reverse ++ cjkScan [] rest

/-- `re.findall(r'[一-鿿]\x7b2,4\x7d', text)`. -/
def cjkFindall (l : List Char) : List String := cjkScan [] l

/-- The per-month keyword extraction of `analyze_monthly_focus` with the
`jieba` backend unavailable (the pattern-count fallback; an absent backend
is the environment this embedding fixes). -/
def monthTopKeywords (combined : String) : List String :=
  let zh := cjkFindall combined.data
  if zh.isEmpty then [] else mostCommon (counterOf zh) 3

/-- `monthly_texts[month_key].append(text)` on an insertion-ordered map. -/
def appendAt (l : List (String × List String)) (k : String) (t : String) :
    List (String × List String) :=
  match l with
  | [] => [(k, [t])]
  | (k0, ts) :: rest =>
    if k0 == k then (k0, ts ++ [t]) :: rest else (k0, ts) :: appendAt rest k t

/-- Per conversation with a truthy timestamp: its month key and the texts it
contributes to `monthly_texts`. -/
def monthTextPairs (convs : List Conversation) : List (String × List String) :=
  convs.filterMap (fun c => (truthyTimeVal c).map (fun t => (monthKey t, userTexts c)))

/-- The `monthly_texts` defaultdict of `analyze_monthly_focus`. -/
def monthly_texts (convs : List Conversation) : List (String × List String) :=
  (monthTextPairs convs).foldl (fun acc p => p.2.foldl (fun a x => appendAt a p.1 x) acc) []

/-- `datetime.fromtimestamp(conv.get("create_time", 0)).strftime("%Y-%m")`:
the `.get` default applies only when the key is absent, so a key present
with a JSON `null` reaches `fromtimestamp(None)` and raises `TypeError`. -/
def monthOfGetDefault (ct : Option (Option Int)) : Except String String :=
  match ct with
  | none => .ok (monthKey 0)
  | some none => .error "TypeError: fromtimestamp argument must be a number, not None"
  | some (some n) => .ok (monthKey n)

/-- The `(month, conversation_id)` pairs the `conversation_count` generator
of `analyze_monthly_focus` visits, or the exception it raises. -/
def mapME : List Conversation → Except String (List (String × Option String))
  | [] => .ok []
  | c :: rest =>
    match monthOfGetDefault c.create_time with
    | .error e => .error e
    | .ok mk =>
      match mapME rest with
      | .error e => .error e
      | .ok xs => .ok ((mk, c.conversation_id) :: xs)

/-- `ConversationAnalyzer.analyze_monthly_focus`: group user text by month,
sort months, and per month extract up to 3 keywords and count the distinct
conversation ids whose (defaulted) timestamp renders to that month.  The
result is an `Except` because the per-month recount can raise (see
`monthOfGetDefault`); with no month entries the loop body never runs. -/
def analyze_monthly_focus (convs : List Conversation) : Except String (List MonthlyTopic) :=
  let items := pySorted (fun a b => decide (a.1 ≤ b.1)) (monthly_texts convs)
  match items with
  | [] => .ok []
  | _ :: _ =>
    match mapME convs with
    | .error e => .error e
    | .ok pairs =>
      .ok (items.map (fun p =>
        { month := p.1,
          top_keywords := (monthTopKeywords (" ".intercalate p.2)).take 3,
          conversation_count :=
            pySetSize ((pairs.filter (fun q => q.1 == p.1)).map (fun q => q.2)) }))

/-! ## Pass 9: `analyze_politeness_score`. -/

/-- The `politeness_score` report key. -/
structure PolitenessScore where
  please_count : Nat
  thank_you_count : Nat
  help_count : Nat
  total_polite_usage : Nat
  total_messages : Nat
  politeness_percentage : ℚ
  evaluation : String

/-- The lower-cased texts of all user messages (every user message counts,
also empty ones). -/
def politeTexts (convs : List Conversation) : List String :=
  (allMessages convs).filterMap (fun m =>
    if roleOf m == "user" then some (pyLower (extract_text_from_message (some m)))
    else none)

/-- `ConversationAnalyzer.analyze_politeness_score`: per user message, the
English and the Chinese keyword test of each category increment the counter
independently. -/
def analyze_politeness_score (convs : List Conversation) : PolitenessScore :=
  let texts := politeTexts convs
  let please : Nat := (texts.map (fun t =>
    (if pyIn "please" t then 1 else 0) + (if pyIn "请" t then 1 else 0))).sum
  let thank : Nat := (texts.map (fun t =>
    (if pyIn "thank you" t || pyIn "thanks" t then 1 else 0) +
    (if pyIn "谢谢" t || pyIn "感谢" t then 1 else 0))).sum
  let helpCnt : Nat := (texts.map (fun t =>
    (if pyIn "help" t then 1 else 0) +
    (if pyIn "帮忙" t || pyIn "帮" t || pyIn "救命" t then 1 else 0))).sum
  let tm := texts.length
  let tp := please + thank + helpCnt
  let pct : ℚ := if 0 < tm then pyRound1 ((tp : ℚ) / (tm : ℚ) * 100) else 0
  { please_count := please,
    thank_you_count := thank,
    help_count := helpCnt,
    total_polite_usage := tp,
    total_messages := tm,
    politeness_percentage := pct,
    evaluation :=
      if 50 ≤ pct then "你是个温文尔雅的绅士/淑女，对 AI 非常礼貌"
      else if 20 ≤ pct then "你比较有礼貌，偶尔会使用礼貌用语"
      else "你是个雷厉风行的实干家，很少使用礼貌用语" }

/-! ## Concrete archives for the claim scenarios. -/

/-- Spec-side notion of C4: does the conversation have a non-null (possibly
zero) timestamp? -/
def hasNonNullTime (c : Conversation) : Bool :=
  match c.create_time with
  | some (some _) => true
  | _ => false

/-- Scenario A's user message: text `"请帮忙, thanks"` (11 characters). -/
def scenarioAUserMessage : Message :=
  { author := some { role := some "user" },
    content := some (.jobj [("parts", .jarr [.jstr "请帮忙, thanks"])]) }

/-- Scenario A's assistant message: text `"你好"` (2 characters). -/
def scenarioAAssistantMessage : Message :=
  { author := some { role := some "assistant" },
    content := some (.jobj [("parts", .jarr [.jstr "你好"])]) }

/-- Scenario A's single conversation, `createdAt` = 1700000000. -/
def scenarioAConversation : Conversation :=
  { conversation_id := some "conv-1", title := some "demo",
    create_time := some (some 1700000000),
    mapping := [("node-1", { message := some scenarioAUserMessage }),
                ("node-2", { message := some scenarioAAssistantMessage })] }

/-- The scenario-A archive of C1. -/
def scenarioAArchive : List Conversation := [scenarioAConversation]

/-- C2's first conversation: a truthy timestamp and one non-empty user text,
so the monthly pass has a month entry. -/
def nullTsConvA : Conversation :=
  { conversation_id := some "a", title := none,
    create_time := some (some 1700000000),
    mapping := [("n1", { message := some { author := some { role := some "user" },
                                           content := some (.jstr "hi there") } })] }

/-- C2's second conversation: the `create_time` key is present with a JSON
`null` value. -/
def nullTsConvB : Conversation :=
  { conversation_id := some "b", title := none,
    create_time := some none, mapping := [] }

/-- C4's counterexample conversation: `create_time` present, non-null, and
exactly 0 (the Unix epoch). -/
def epochZeroConv : Conversation :=
  { conversation_id := some "z", title := some "zero",
    create_time := some (some 0), mapping := [] }

/-- C8's counterexample conversations: same month, one day apart, but with
no user messages at all. -/
def emptyMappingConvA : Conversation :=
  { conversation_id := some "a", title := some "t1",
    create_time := some (some 1700000000), mapping := [] }

/-- Second conversation of C8's counterexample (one day later). -/
def emptyMappingConvB : Conversation :=
  { conversation_id := some "b", title := some "t2",
    create_time := some (some 1700086400), mapping := [] }

/-- C8's witness conversation with one non-empty user text. -/
def monthWitnessConvA : Conversation :=
  { conversation_id := some "w-a", title := some "wa",
    create_time := some (some 1700000000),
    mapping := [("n1", { message := some { author := some { role := some "user" },
                                           content := some (.jstr "hello there friend") } })] }

/-- C8's witness conversation one day later, no user messages. -/
def monthWitnessConvB : Conversation :=
  { conversation_id := some "w-b", title := some "wb",
    create_time := some (some 1700086400), mapping := [] }

/-- A one-conversation archive holding a single user message with scalar
string content `t` (used by C9). -/
def singleUserTextConv (t : String) : Conversation :=
  { conversation_id := some "c9", title := some "t9",
    create_time := none,
    mapping := [("n1", { message := some { author := some { role := some "user" },
                                           content := some (.jstr t) } })] }

/-! ## Claim theorems. -/

/-- C3: text extraction is total and deterministic, depends only on the
`content` field, and equals the spec's rule: the single-space join of the
string forms of the non-empty `parts` entries when a parts list exists,
otherwise the string form of the content when it is truthy, otherwise the
empty string.  (`extract_text_from_message` is a total function, so it never
fails; this theorem factors it through the content field alone.) -/
theorem c3_extract_text_total (m : Option Message) :
    extract_text_from_message m = spec_extract_text (m.bind Message.content) := by
  cases m with
  | none => rfl
  | some msg =>
    cases hc : msg.content with
    | none => simp [extract_text_from_message, spec_extract_text, Option.bind, hc]
    | some c =>
      cases c with
      | jobj fs =>
        cases hp : lookupField fs "parts" with
        | none =>
          simp [extract_text_from_message, spec_extract_text, specPartsList,
            Option.bind, hc, hp]
        | some v =>
          cases v <;>
            simp [extract_text_from_message, spec_extract_text, specPartsList,
              Option.bind, hc, hp]
      | jnull => simp [extract_text_from_message, spec_extract_text, specPartsList, Option.bind, hc]
      | jbool b => simp [extract_text_from_message, spec_extract_text, specPartsList, Option.bind, hc]
      | jint n => simp [extract_text_from_message, spec_extract_text, specPartsList, Option.bind, hc]
      | jstr s => simp [extract_text_from_message, spec_extract_text, specPartsList, Option.bind, hc]
      | jarr xs => simp [extract_text_from_message, spec_extract_text, specPartsList, Option.bind, hc]

/-- The `ratio` field of the ratio pass, as a formula of the summary. -/
lemma directors_ratio_ratio (stats : SummaryStats) :
    (analyze_directors_ratio stats).ratio =
      (if 0 < stats.total_user_characters
       then pyRound2 ((stats.total_assistant_characters : ℚ) / (stats.total_user_characters : ℚ))
       else 0) := rfl

/-- The `persona_type` field of the ratio pass, as a formula of its ratio. -/
lemma directors_ratio_persona (stats : SummaryStats) :
    (analyze_directors_ratio stats).persona_type =
      (if 8 ≤ (analyze_directors_ratio stats).ratio then "学习者"
       else if 3 ≤ (analyze_directors_ratio stats).ratio then "平衡型"
       else "创作者") := rfl

/-- C1 (counterexample): on scenario A's archive the claim's figures fail:
the text `"请帮忙, thanks"` has 11 characters, not 14, so
`total_user_characters` is 11 and the ratio is `round(2/11, 2) = 0.18`,
not `0.14`. -/
theorem c1_scenario_a_claimed_false :
    ¬ ((analyze_summary_stats scenarioAArchive).total_conversations = 1
      ∧ (analyze_summary_stats scenarioAArchive).total_messages = 1
      ∧ (analyze_summary_stats scenarioAArchive).total_user_characters = 14
      ∧ (analyze_summary_stats scenarioAArchive).total_assistant_characters = 2
      ∧ (analyze_politeness_score scenarioAArchive).please_count = 1
      ∧ (analyze_politeness_score scenarioAArchive).help_count = 1
      ∧ (analyze_politeness_score scenarioAArchive).thank_you_count = 1
      ∧ (analyze_directors_ratio (analyze_summary_stats scenarioAArchive)).ratio = 7/50
      ∧ (analyze_directors_ratio (analyze_summary_stats scenarioAArchive)).persona_type = "创作者") :=
  fun h => absurd h.2.2.1 (by decide)

/-- C1 (amended): scenario A with the figures the code actually produces:
1 conversation, 1 user message, 11 user characters (`len("请帮忙, thanks")`),
2 assistant characters; politeness counters please/help/thank-you all 1
("请" / "帮忙" / "thanks"); ratio `round(2/11, 2) = 0.18`; persona
"创作者" (the co-creator label). -/
theorem c1_scenario_a_amended :
    (analyze_summary_stats scenarioAArchive).total_conversations = 1
    ∧ (analyze_summary_stats scenarioAArchive).total_messages = 1
    ∧ (analyze_summary_stats scenarioAArchive).total_user_characters = 11
    ∧ (analyze_summary_stats scenarioAArchive).total_assistant_characters = 2
    ∧ (analyze_politeness_score scenarioAArchive).please_count = 1
    ∧ (analyze_politeness_score scenarioAArchive).help_count = 1
    ∧ (analyze_politeness_score scenarioAArchive).thank_you_count = 1
    ∧ (analyze_directors_ratio (analyze_summary_stats scenarioAArchive)).ratio = 9/50
    ∧ (analyze_directors_ratio (analyze_summary_stats scenarioAArchive)).persona_type = "创作者" := by
  have hu : (analyze_summary_stats scenarioAArchive).total_user_characters = 11 := by decide
  have ha : (analyze_summary_stats scenarioAArchive).total_assistant_characters = 2 := by decide
  have hr : (analyze_directors_ratio (analyze_summary_stats scenarioAArchive)).ratio = 9/50 := by
    rw [directors_ratio_ratio, hu, ha]
    norm_num [pyRound2, roundHalfEven]
  refine ⟨by decide, by decide, hu, ha, by decide, by decide, by decide, hr, ?_⟩
  rw [directors_ratio_persona, hr]
  norm_num

/-- C2 (code bug): a conversation whose `create_time` key holds a JSON
`null` is NOT excluded-and-survived: as soon as the monthly pass has one
month entry, its `conversation_count` recount calls
`datetime.fromtimestamp(conv.get("create_time", 0))`, the `.get` default
does not apply to a present-but-null key, and the pass raises instead of
producing its report key. -/
theorem c2_null_timestamp_fatal :
    analyze_monthly_focus [nullTsConvA, nullTsConvB] =
      Except.error "TypeError: fromtimestamp argument must be a number, not None" := by
  rfl

/-! ## Counter-map lemmas for the heatmap conservation claim. -/

/-- Bumping a counter adds exactly its increment to the value sum. -/
lemma sumV_bumpBy {α} [BEq α] (l : List (α × Nat)) (k : α) (c : Nat) :
    sumV (bumpBy l k c) = sumV l + c := by
  induction l with
  | nil => simp [bumpBy, sumV]
  | cons p rest ih =>
    obtain ⟨k0, v⟩ := p
    by_cases h : (k0 == k) = true
    · simp [bumpBy, h, sumV]
      omega
    · simp only [bumpBy, h, if_false, Bool.false_eq_true]
      simp only [sumV, List.map_cons, List.sum_cons] at ih ⊢
      omega

/-- Folding `bumpBy` accumulates the sum of the increments. -/
lemma sumV_foldl_bumpBy {α β} [BEq α] (key : β → α) (cnt : β → Nat) :
    ∀ (xs : List β) (acc : List (α × Nat)),
      sumV (xs.foldl (fun d e => bumpBy d (key e) (cnt e)) acc)
        = sumV acc + (xs.map cnt).sum := by
  intro xs
  induction xs with
  | nil => intro acc; simp
  | cons x xs ih =>
    intro acc
    simp only [List.foldl_cons, List.map_cons, List.sum_cons, ih, sumV_bumpBy]
    omega

/-- The sparse heatmap cells conserve the number of timestamps. -/
lemma sumV_heatCells (ts : List Int) : sumV (heatCells ts) = ts.length := by
  have h := sumV_foldl_bumpBy (fun t => (hourOf t, weekdayOf t)) (fun _ : Int => 1) ts []
  simpa [heatCells, sumV] using h

/-- `filterMap` length as a `countP` over the input. -/
lemma length_truthyTimes (convs : List Conversation) :
    (truthyTimes convs).length = convs.countP (fun c => (truthyTimeVal c).isSome) := by
  unfold truthyTimes
  induction convs with
  | nil => rfl
  | cons c l ih =>
    cases h : truthyTimeVal c <;>
      simp [List.filterMap_cons, h, List.countP_cons, ih]

/-- A bumped entry's key is the bumped key or one already present. -/
lemma mem_bumpBy {α} [BEq α] [LawfulBEq α] {l : List (α × Nat)} {k : α} {c : Nat}
    {e : α × Nat} (h : e ∈ bumpBy l k c) : e.1 = k ∨ e ∈ l := by
  induction l with
  | nil => simp [bumpBy] at h; simp [h]
  | cons p rest ih =>
    obtain ⟨k0, v⟩ := p
    by_cases hk : (k0 == k) = true
    · simp only [bumpBy, hk, if_true] at h
      rcases List.mem_cons.mp h with h | h
      · left; rw [h]; exact eq_of_beq hk
      · right; exact List.mem_cons_of_mem _ h
    · simp only [bumpBy, hk, if_false, Bool.false_eq_true] at h
      rcases List.mem_cons.mp h with h | h
      · right; rw [h]; exact List.mem_cons_self _ _
      · rcases ih h with h2 | h2
        · left; exact h2
        · right; exact List.mem_cons_of_mem _ h2

/-- A key of the bumped map is the bumped key or one already present. -/
lemma mem_keysOf_bumpBy {α} [BEq α] [LawfulBEq α] {l : List (α × Nat)} {k k2 : α}
    {c : Nat} (h : k2 ∈ keysOf (bumpBy l k c)) : k2 ∈ keysOf l ∨ k2 = k := by
  simp only [keysOf, List.mem_map] at h
  obtain ⟨e, he, hk2⟩ := h
  rcases mem_bumpBy he with h | h
  · right; rw [← hk2]; exact h
  · left; simp only [keysOf, List.mem_map]; exact ⟨e, h, hk2⟩

/-- Bumping preserves distinctness of the keys. -/
lemma nodup_keysOf_bumpBy {α} [BEq α] [LawfulBEq α] {l : List (α × Nat)} {k : α}
    {c : Nat} (h : (keysOf l).Nodup) : (keysOf (bumpBy l k c)).Nodup := by
  induction l with
  | nil => simp [bumpBy, keysOf]
  | cons p rest ih =>
    obtain ⟨k0, v⟩ := p
    simp only [keysOf, List.map_cons, List.nodup_cons] at h
    by_cases hk : (k0 == k) = true
    · simp only [bumpBy, hk, if_true, keysOf, List.map_cons, List.nodup_cons]
      exact ⟨h.1, h.2⟩
    · simp only [bumpBy, hk, if_false, Bool.false_eq_true, keysOf, List.map_cons,
        List.nodup_cons]
      refine ⟨fun hmem => ?_, ih h.2⟩
      rcases mem_keysOf_bumpBy hmem with h2 | h2
      · exact h.1 h2
      · rw [h2] at hk
        simp at hk

/-- `lookupD` on a cons. -/
lemma lookupD_cons (k v : Nat) (d : List (Nat × Nat)) (i : Nat) :
    lookupD ((k, v) :: d) i = if k = i then v else lookupD d i := by
  by_cases h : k = i
  · simp [lookupD, List.find?_cons_of_pos, h]
  · have hb : ((k, v).1 == i) = false := by simpa using h
    simp [lookupD, List.find?_cons_of_neg, hb, h]

/-- A key that is not present reads as 0. -/
lemma lookupD_eq_zero {d : List (Nat × Nat)} {i : Nat} (h : i ∉ keysOf d) :
    lookupD d i = 0 := by
  induction d with
  | nil => rfl
  | cons p rest ih =>
    obtain ⟨k, v⟩ := p
    simp only [keysOf, List.map_cons, List.mem_cons, not_or] at h
    rw [lookupD_cons]
    have hk : ¬ k = i := fun e => h.1 (by rw [e])
    simp only [hk, if_false]
    exact ih (by simpa [keysOf] using h.2)

/-- Summing a pointwise update over `range n` adds the updated value, when
the base function vanishes at the updated index. -/
lemma sum_range_if (v : Nat) (g : Nat → Nat) :
    ∀ n k : Nat, k < n → g k = 0 →
      ((List.range n).map (fun i => if k = i then v else g i)).sum
        = v + ((List.range n).map g).sum := by
  intro n
  induction n with
  | zero => intro k hk _; omega
  | succ n ih =>
    intro k hk hg
    rw [List.range_succ]
    by_cases hkn : k = n
    · subst hkn
      have hmap : (List.range k).map (fun i => if k = i then v else g i)
          = (List.range k).map g := by
        apply List.map_congr_left
        intro i hi
        have hik : i < k := List.mem_range.mp hi
        have hne : ¬ k = i := by omega
        simp [hne]
      simp only [List.map_append, List.sum_append, hmap, List.map_cons, List.map_nil,
        List.sum_cons, List.sum_nil, eq_self_iff_true, if_true]
      omega
    · have hk2 : k < n := by omega
      simp only [List.map_append, List.sum_append, List.map_cons, List.map_nil,
        List.sum_cons, List.sum_nil, ih k hk2 hg, if_neg hkn]
      omega

/-- For a counter map with distinct keys all below `n`, reading every index
of `range n` sums to the value sum. -/
lemma sum_range_lookupD (n : Nat) :
    ∀ d : List (Nat × Nat), (keysOf d).Nodup → (∀ k ∈ keysOf d, k < n) →
      ((List.range n).map (fun i => lookupD d i)).sum = sumV d := by
  intro d
  induction d with
  | nil => intro _ _; simp [lookupD, List.find?, sumV]
  | cons p rest ih =>
    obtain ⟨k, v⟩ := p
    intro hnd hlt
    have hk : k < n := hlt k (by simp [keysOf])
    simp only [keysOf, List.map_cons, List.nodup_cons] at hnd
    have hg : lookupD rest k = 0 := lookupD_eq_zero hnd.1
    have h1 : (List.range n).map (fun i => lookupD ((k, v) :: rest) i)
        = (List.range n).map (fun i => if k = i then v else lookupD rest i) := by
      apply List.map_congr_left
      intro i _
      exact lookupD_cons k v rest i
    rw [h1, sum_range_if v (fun i => lookupD rest i) n k hk hg,
      ih hnd.2 (fun k2 hk2 => hlt k2 (by simp [keysOf]; right; simpa [keysOf] using hk2))]
    simp [sumV]

/-- The weekday of any timestamp is below 7. -/
lemma weekdayOf_lt (t : Int) : weekdayOf t < 7 := by
  unfold weekdayOf
  have h1 : 0 ≤ (t.fdiv 86400 + 3).emod 7 := Int.emod_nonneg _ (by decide)
  have h2 : (t.fdiv 86400 + 3).emod 7 < 7 := Int.emod_lt_of_pos _ (by decide)
  omega

/-- Every sparse cell's weekday component is below 7. -/
lemma heatCells_weekday_lt (ts : List Int) :
    ∀ acc : List ((Nat × Nat) × Nat), (∀ e ∈ acc, e.1.2 < 7) →
      ∀ e ∈ ts.foldl (fun d t => bumpBy d (hourOf t, weekdayOf t) 1) acc, e.1.2 < 7 := by
  induction ts with
  | nil => intro acc hacc e he; exact hacc e he
  | cons t ts ih =>
    intro acc hacc e he
    simp only [List.foldl_cons] at he
    refine ih _ (fun e2 he2 => ?_) e he
    rcases mem_bumpBy he2 with h | h
    · rw [h]
      exact weekdayOf_lt t
    · exact hacc e2 h

/-- Key invariant carried by the weekday-count fold: distinct keys below `n`. -/
lemma fold_bumpBy_keys {β} (key : β → Nat) (cnt : β → Nat) (n : Nat) :
    ∀ (xs : List β) (acc : List (Nat × Nat)),
      (keysOf acc).Nodup → (∀ k ∈ keysOf acc, k < n) → (∀ e ∈ xs, key e < n) →
      (keysOf (xs.foldl (fun d e => bumpBy d (key e) (cnt e)) acc)).Nodup
      ∧ ∀ k ∈ keysOf (xs.foldl (fun d e => bumpBy d (key e) (cnt e)) acc), k < n := by
  intro xs
  induction xs with
  | nil => intro acc h1 h2 _; exact ⟨h1, h2⟩
  | cons x xs ih =>
    intro acc h1 h2 h3
    simp only [List.foldl_cons]
    refine ih _ (nodup_keysOf_bumpBy h1) (fun k hk => ?_)
      (fun e he => h3 e (List.mem_cons_of_mem _ he))
    rcases mem_keysOf_bumpBy hk with h | h
    · exact h2 k h
    · rw [h]
      exact h3 x (List.mem_cons_self _ _)

/-- C4 (amended): the heatmap pass conserves counts over the conversations
with a truthy (present, non-null, nonzero) timestamp: the sparse cells, the
per-hour distribution and the per-weekday distribution all sum to that
number.  (The claim's "non-null" is corrected to "truthy": see the
counterexample with timestamp 0.) -/
theorem c4_heatmap_conservation (l : List Conversation) :
    (((analyze_brain_activity_heatmap l).heatmap_data.map (fun e => e.2.2)).sum
        = l.countP (fun c => (truthyTimeVal c).isSome))
    ∧ (((analyze_brain_activity_heatmap l).hour_distribution.map (fun e => e.2)).sum
        = l.countP (fun c => (truthyTimeVal c).isSome))
    ∧ (((analyze_brain_activity_heatmap l).weekday_distribution.map (fun e => e.2)).sum
        = l.countP (fun c => (truthyTimeVal c).isSome)) := by
  have harr : ((heatmapArray l).map (fun e => e.2.2)).sum
      = l.countP (fun c => (truthyTimeVal c).isSome) := by
    rw [← length_truthyTimes]
    have : ((heatmapArray l).map (fun e => e.2.2)).sum = sumV (heatCells (truthyTimes l)) := by
      simp [heatmapArray, sumV, List.map_map, Function.comp_def]
    rw [this, sumV_heatCells]
  refine ⟨harr, ?_, ?_⟩
  · have h := sumV_foldl_bumpBy (fun e : Nat × Nat × Nat => e.1)
      (fun e : Nat × Nat × Nat => e.2.2) (heatmapArray l) []
    have h0 : sumV (hourDistribution l) = ((heatmapArray l).map (fun e => e.2.2)).sum := by
      simpa [hourDistribution, sumV] using h
    show sumV (hourDistribution l) = _
    rw [h0, harr]
  · have hw := sumV_foldl_bumpBy (fun e : Nat × Nat × Nat => e.2.1)
      (fun e : Nat × Nat × Nat => e.2.2) (heatmapArray l) []
    have h0 : sumV (weekdayCounts l) = ((heatmapArray l).map (fun e => e.2.2)).sum := by
      simpa [weekdayCounts, sumV] using hw
    have hbound : ∀ e ∈ heatmapArray l, (fun e : Nat × Nat × Nat => e.2.1) e < 7 := by
      intro e he
      simp only [heatmapArray, List.mem_map] at he
      obtain ⟨cell, hcell, hce⟩ := he
      have hlt := heatCells_weekday_lt (truthyTimes l) [] (by simp) cell hcell
      rw [← hce]
      exact hlt
    have hkeys := fold_bumpBy_keys (fun e : Nat × Nat × Nat => e.2.1)
      (fun e : Nat × Nat × Nat => e.2.2) 7 (heatmapArray l) [] (by simp [keysOf])
      (by simp [keysOf]) hbound
    have hsum : ((List.range 7).map (fun i => lookupD (weekdayCounts l) i)).sum
        = sumV (weekdayCounts l) :=
      sum_range_lookupD 7 (weekdayCounts l) hkeys.1 hkeys.2
    show (((List.range 7).map
        (fun i => (weekday_names.getD i "", lookupD (weekdayCounts l) i))).map
          (fun e => e.2)).sum = _
    rw [List.map_map]
    have hc : ((fun e : String × Nat => e.2)
        ∘ (fun i => (weekday_names.getD i "", lookupD (weekdayCounts l) i)))
        = fun i => lookupD (weekdayCounts l) i := rfl
    rw [hc, hsum, h0, harr]

/-- C4 (counterexample): a conversation whose `create_time` is present and
non-null but exactly 0 is skipped by the heatmap (truthiness), so the sparse
cells sum to 0 while the archive has 1 conversation with a non-null
timestamp. -/
theorem c4_nonnull_claimed_false :
    ¬ ((((analyze_brain_activity_heatmap [epochZeroConv]).heatmap_data.map
          (fun e => e.2.2)).sum)
        = [epochZeroConv].countP (fun c => hasNonNullTime c)) := by
  decide

/-- The three engagement buckets partition the positive turn counts. -/
lemma countP_buckets (ts : List Nat) (h : ∀ t ∈ ts, 0 < t) :
    ts.countP (fun t => decide (1 ≤ t) && decide (t ≤ 2))
      + ts.countP (fun t => decide (3 ≤ t) && decide (t ≤ 9))
      + ts.countP (fun t => decide (10 ≤ t)) = ts.length := by
  induction ts with
  | nil => simp
  | cons t ts ih =>
    have ht : 0 < t := h t (List.mem_cons_self _ _)
    have ih2 := ih (fun x hx => h x (List.mem_cons_of_mem _ hx))
    simp only [List.countP_cons, List.length_cons, Bool.and_eq_true, decide_eq_true_eq]
    split_ifs <;> omega

/-- C5: the engagement-depth pass partitions: shallow + medium + deep equals
the classified-conversation total, and that total counts exactly the
conversations with at least one user turn (zero-turn conversations reach no
bucket and not the total). -/
theorem c5_deep_dive_partition (l : List Conversation) :
    (analyze_deep_dive_index l).shallow_1_2_turns
      + (analyze_deep_dive_index l).medium_3_9_turns
      + (analyze_deep_dive_index l).deep_10plus_turns
      = (analyze_deep_dive_index l).total_conversations
    ∧ (analyze_deep_dive_index l).total_conversations
      = l.countP (fun c => decide (0 < userTurns c)) := by
  constructor
  · have hmem : ∀ t ∈ (l.map userTurns).filter (fun t => decide (0 < t)), 0 < t := by
      intro t ht
      have h2 := (List.mem_filter.mp ht).2
      simpa using h2
    exact countP_buckets ((l.map userTurns).filter (fun t => decide (0 < t))) hmem
  · show ((l.map userTurns).filter (fun t => decide (0 < t))).length = _
    rw [← List.countP_eq_length_filter, List.countP_map]
    rfl

/-- C6: the ratio pass computes `round(assistant/user, 2)` (0 when there are
no user characters, a defined result rather than an error) and assigns
exactly one persona by the thresholds: ≥ 8 learner ("学习者"),
[3, 8) balanced ("平衡型"), < 3 co-creator ("创作者"); in particular zero
user characters yields ratio 0 and the co-creator label. -/
theorem c6_directors_ratio_thresholds (l : List Conversation) :
    (analyze_directors_ratio (analyze_summary_stats l)).ratio
      = (if 0 < (analyze_summary_stats l).total_user_characters
         then pyRound2 (((analyze_summary_stats l).total_assistant_characters : ℚ)
            / ((analyze_summary_stats l).total_user_characters : ℚ))
         else 0)
    ∧ ((analyze_directors_ratio (analyze_summary_stats l)).persona_type = "学习者"
        ↔ 8 ≤ (analyze_directors_ratio (analyze_summary_stats l)).ratio)
    ∧ ((analyze_directors_ratio (analyze_summary_stats l)).persona_type = "平衡型"
        ↔ 3 ≤ (analyze_directors_ratio (analyze_summary_stats l)).ratio
          ∧ (analyze_directors_ratio (analyze_summary_stats l)).ratio < 8)
    ∧ ((analyze_directors_ratio (analyze_summary_stats l)).persona_type = "创作者"
        ↔ (analyze_directors_ratio (analyze_summary_stats l)).ratio < 3)
    ∧ ((analyze_summary_stats l).total_user_characters = 0 →
        (analyze_directors_ratio (analyze_summary_stats l)).ratio = 0
        ∧ (analyze_directors_ratio (analyze_summary_stats l)).persona_type = "创作者") := by
  have hp := directors_ratio_persona (analyze_summary_stats l)
  have hlearn : ("平衡型" : String) ≠ "学习者" := by decide
  have hcre : ("创作者" : String) ≠ "学习者" := by decide
  have hbal1 : ("学习者" : String) ≠ "平衡型" := by decide
  have hbal2 : ("创作者" : String) ≠ "平衡型" := by decide
  have hco1 : ("学习者" : String) ≠ "创作者" := by decide
  have hco2 : ("平衡型" : String) ≠ "创作者" := by decide
  refine ⟨directors_ratio_ratio (analyze_summary_stats l), ?_, ?_, ?_, ?_⟩
  · rw [hp]
    by_cases h8 : 8 ≤ (analyze_directors_ratio (analyze_summary_stats l)).ratio
    · rw [if_pos h8]
      simp [h8]
    · rw [if_neg h8]
      constructor
      · intro he
        by_cases h3 : 3 ≤ (analyze_directors_ratio (analyze_summary_stats l)).ratio
        · rw [if_pos h3] at he
          exact absurd he hlearn
        · rw [if_neg h3] at he
          exact absurd he hcre
      · intro hle
        exact absurd hle h8
  · rw [hp]
    by_cases h8 : 8 ≤ (analyze_directors_ratio (analyze_summary_stats l)).ratio
    · rw [if_pos h8]
      constructor
      · intro he
        exact absurd he hbal1
      · rintro ⟨_, hlt⟩
        exact absurd hlt (not_lt.mpr h8)
    · by_cases h3 : 3 ≤ (analyze_directors_ratio (analyze_summary_stats l)).ratio
      · rw [if_neg h8, if_pos h3]
        exact ⟨fun _ => ⟨h3, not_le.mp h8⟩, fun _ => rfl⟩
      · rw [if_neg h8, if_neg h3]
        constructor
        · intro he
          exact absurd he hbal2
        · rintro ⟨hge, _⟩
          exact absurd hge h3
  · rw [hp]
    by_cases h8 : 8 ≤ (analyze_directors_ratio (analyze_summary_stats l)).ratio
    · rw [if_pos h8]
      constructor
      · intro he
        exact absurd he hco1
      · intro hlt
        exact absurd h8 (not_le.mpr (lt_trans hlt (by norm_num)))
    · by_cases h3 : 3 ≤ (analyze_directors_ratio (analyze_summary_stats l)).ratio
      · rw [if_neg h8, if_pos h3]
        constructor
        · intro he
          exact absurd he hco2
        · intro hlt
          exact absurd h3 (not_le.mpr hlt)
      · rw [if_neg h8, if_neg h3]
        exact ⟨fun _ => not_le.mp h3, fun _ => rfl⟩
  · intro h0
    have hr0 : (analyze_directors_ratio (analyze_summary_stats l)).ratio = 0 := by
      rw [directors_ratio_ratio, h0]
      simp
    refine ⟨hr0, ?_⟩
    rw [hp, hr0]
    norm_num

/-- C6 (witness): on the empty archive there are no user characters, the
ratio is 0 and the persona is the co-creator label. -/
theorem c6_directors_ratio_witness :
    (analyze_directors_ratio (analyze_summary_stats ([] : List Conversation))).ratio = 0
    ∧ (analyze_directors_ratio (analyze_summary_stats ([] : List Conversation))).persona_type
      = "创作者" :=
  (c6_directors_ratio_thresholds []).2.2.2.2 rfl

/-- `maxUserTurns` on a cons. -/
lemma maxUserTurns_cons (c : Conversation) (l : List Conversation) :
    maxUserTurns (c :: l) = max (userTurns c) (maxUserTurns l) := rfl

/-- If nothing beats the running maximum, the marathon fold keeps its state. -/
lemma marathonGo_of_le :
    ∀ (l : List Conversation) (m : Nat) (best : Option Conversation),
      maxUserTurns l ≤ m → marathonGo l m best = (m, best) := by
  intro l
  induction l with
  | nil => intro m best _; rfl
  | cons c l ih =>
    intro m best hle
    rw [maxUserTurns_cons] at hle
    rw [marathonGo, if_neg (by omega)]
    exact ih m best (by omega)

/-- If something beats the running maximum, the fold returns the list's
maximum and the first conversation attaining it. -/
lemma marathonGo_of_lt :
    ∀ (l : List Conversation) (m : Nat) (best : Option Conversation),
      m < maxUserTurns l →
      marathonGo l m best
        = (maxUserTurns l, l.find? (fun c => userTurns c == maxUserTurns l)) := by
  intro l
  induction l with
  | nil => intro m best h; simp [maxUserTurns] at h
  | cons c l ih =>
    intro m best hlt
    rw [maxUserTurns_cons] at hlt
    by_cases hc : m < userTurns c
    · rw [marathonGo, if_pos hc]
      by_cases hrest : userTurns c < maxUserTurns l
      · rw [ih (userTurns c) (some c) hrest]
        have hmax : max (userTurns c) (maxUserTurns l) = maxUserTurns l := by omega
        have hne : (userTurns c == max (userTurns c) (maxUserTurns l)) = false := by
          rw [hmax]
          simp only [beq_eq_false_iff_ne, ne_eq]
          omega
        rw [maxUserTurns_cons, List.find?_cons_of_neg _ (by simp [hne]), hmax]
      · have hmax : max (userTurns c) (maxUserTurns l) = userTurns c := by omega
        rw [marathonGo_of_le l (userTurns c) (some c) (by omega)]
        have hfind : List.find? (fun c2 => userTurns c2 == max (userTurns c) (maxUserTurns l))
            (c :: l) = some c := by
          apply List.find?_cons_of_pos
          show (userTurns c == max (userTurns c) (maxUserTurns l)) = true
          rw [hmax]
          simp
        rw [maxUserTurns_cons, hfind, hmax]
    · have hml : m < maxUserTurns l := by omega
      rw [marathonGo, if_neg hc, ih m best hml]
      have hmax : max (userTurns c) (maxUserTurns l) = maxUserTurns l := by omega
      have hne : (userTurns c == max (userTurns c) (maxUserTurns l)) = false := by
        rw [hmax]
        simp only [beq_eq_false_iff_ne, ne_eq]
        omega
      rw [maxUserTurns_cons, List.find?_cons_of_neg _ (by simp [hne]), hmax]

/-- The maximum user-turn count is 0 exactly when every conversation has no
user turn. -/
lemma maxUserTurns_eq_zero (l : List Conversation) :
    maxUserTurns l = 0 ↔ ∀ c ∈ l, userTurns c = 0 := by
  induction l with
  | nil => simp [maxUserTurns]
  | cons c l ih => simp [maxUserTurns_cons, ih]

/-- A positive maximum is attained by some conversation found by `find?`. -/
lemma find?_maxUserTurns (l : List Conversation) (h : 0 < maxUserTurns l) :
    ∃ c, l.find? (fun c => userTurns c == maxUserTurns l) = some c := by
  induction l with
  | nil => simp [maxUserTurns] at h
  | cons c l ih =>
    by_cases hc : userTurns c = maxUserTurns (c :: l)
    · exact ⟨c, List.find?_cons_of_pos _ (by simpa using hc)⟩
    · have hmax : max (userTurns c) (maxUserTurns l) = maxUserTurns l := by
        rw [maxUserTurns_cons] at hc
        omega
      have hl : 0 < maxUserTurns l := by
        rw [maxUserTurns_cons] at h
        omega
      obtain ⟨c2, hc2⟩ := ih hl
      refine ⟨c2, ?_⟩
      rw [List.find?_cons_of_neg _ (by simpa [maxUserTurns_cons, hmax] using hc),
        maxUserTurns_cons, hmax]
      exact hc2

/-- C7: the marathon pass returns the record of the first conversation in
archive order attaining the maximum user-turn count (strict improvement
keeps the first-encountered maximum), and returns `none` exactly when no
conversation has at least one user turn. -/
theorem c7_marathon_first_max (l : List Conversation) :
    analyze_marathon_session l
      = (firstMaxConv l).map (fun c => marathonRecord c (maxUserTurns l))
    ∧ (analyze_marathon_session l = none ↔ ∀ c ∈ l, userTurns c = 0) := by
  by_cases h0 : maxUserTurns l = 0
  · have hgo : marathonGo l 0 none = (0, none) := marathonGo_of_le l 0 none (by omega)
    have hm : analyze_marathon_session l = none := by
      rw [analyze_marathon_session, hgo]
    constructor
    · rw [hm, firstMaxConv, if_pos h0]
      rfl
    · rw [hm]
      simp [← maxUserTurns_eq_zero, h0]
  · have hpos : 0 < maxUserTurns l := by omega
    have hgo := marathonGo_of_lt l 0 none hpos
    obtain ⟨c, hc⟩ := find?_maxUserTurns l hpos
    have hm : analyze_marathon_session l = some (marathonRecord c (maxUserTurns l)) := by
      rw [analyze_marathon_session, hgo, hc]
    constructor
    · rw [hm, firstMaxConv, if_neg h0, hc]
      rfl
    · rw [hm]
      simp only [reduceCtorEq, false_iff]
      intro hall
      exact h0 ((maxUserTurns_eq_zero l).mpr hall)

/-- A truthy timestamp value pins down the stored `create_time`. -/
lemma truthyTimeVal_eq_some {c : Conversation} {t : Int}
    (h : truthyTimeVal c = some t) : c.create_time = some (some t) := by
  cases hc : c.create_time with
  | none => simp [truthyTimeVal, hc] at h
  | some o =>
    cases o with
    | none => simp [truthyTimeVal, hc] at h
    | some n =>
      simp only [truthyTimeVal, hc] at h
      by_cases hn : (n != 0) = true
      · rw [if_pos hn] at h
        rw [Option.some_inj.mp h]
      · rw [if_neg hn] at h
        exact absurd h (by simp)

/-- Appending under the single held key extends its list. -/
lemma appendAt_same (k : String) (xs : List String) (t : String) :
    appendAt [(k, xs)] k t = [(k, xs ++ [t])] := by
  simp [appendAt]

/-- Folding appends under the held key concatenates the texts. -/
lemma foldl_appendAt_from_single (k : String) :
    ∀ ts xs : List String,
      ts.foldl (fun a x => appendAt a k x) [(k, xs)] = [(k, xs ++ ts)] := by
  intro ts
  induction ts with
  | nil => intro xs; simp
  | cons t ts ih =>
    intro xs
    simp only [List.foldl_cons, appendAt_same, ih, List.append_assoc, List.singleton_append]

/-- Folding appends into the empty map creates the key once. -/
lemma foldl_appendAt_from_nil (k : String) (ts : List String) (h : ts ≠ []) :
    ts.foldl (fun a x => appendAt a k x) [] = [(k, ts)] := by
  cases ts with
  | nil => exact absurd rfl h
  | cons t ts =>
    simp only [List.foldl_cons]
    have h1 : appendAt [] k t = [(k, [t])] := rfl
    rw [h1, foldl_appendAt_from_single, List.singleton_append]

/-- `monthly_texts` of a two-conversation archive in one month: a single
entry holding both conversations' user texts. -/
lemma monthly_texts_pair {a b : Conversation} {ta tb : Int}
    (hta : truthyTimeVal a = some ta) (htb : truthyTimeVal b = some tb)
    (hm : monthKey tb = monthKey ta)
    (hu : userTexts a ≠ [] ∨ userTexts b ≠ []) :
    monthly_texts [a, b] = [(monthKey ta, userTexts a ++ userTexts b)] := by
  have hpairs : monthTextPairs [a, b]
      = [(monthKey ta, userTexts a), (monthKey tb, userTexts b)] := by
    simp [monthTextPairs, hta, htb]
  rw [monthly_texts, hpairs]
  simp only [List.foldl_cons, List.foldl_nil]
  by_cases ha : userTexts a = []
  · have hb : userTexts b ≠ [] := by
      rcases hu with hu | hu
      · exact absurd ha hu
      · exact hu
    rw [ha]
    simp only [List.foldl_nil]
    rw [hm, foldl_appendAt_from_nil (monthKey ta) _ hb, List.nil_append]
  · rw [foldl_appendAt_from_nil (monthKey ta) _ ha, hm, foldl_appendAt_from_single]

/-- C8 (amended): two conversations with truthy timestamps in the same
month, at least one non-empty user text between them, and distinct
conversation ids yield exactly one `monthly_focus` entry, with
`conversation_count` 2 and that month's key. -/
theorem c8_monthly_focus_amended (a b : Conversation) (ta tb : Int)
    (hta : truthyTimeVal a = some ta) (htb : truthyTimeVal b = some tb)
    (hm : monthKey tb = monthKey ta)
    (hu : userTexts a ≠ [] ∨ userTexts b ≠ [])
    (hid : (a.conversation_id == b.conversation_id) = false) :
    ∃ e, analyze_monthly_focus [a, b] = .ok [e]
      ∧ e.conversation_count = 2 ∧ e.month = monthKey ta := by
  have hmt := monthly_texts_pair hta htb hm hu
  have hca := truthyTimeVal_eq_some hta
  have hcb := truthyTimeVal_eq_some htb
  have hmap : mapME [a, b]
      = .ok [(monthKey ta, a.conversation_id), (monthKey tb, b.conversation_id)] := by
    simp [mapME, monthOfGetDefault, hca, hcb]
  have hcount : pySetSize ((([(monthKey ta, a.conversation_id),
      (monthKey tb, b.conversation_id)]).filter
        (fun q => q.1 == monthKey ta)).map (fun q => q.2)) = 2 := by
    have h1 : (monthKey ta == monthKey ta) = true := by simp
    have h2 : (monthKey tb == monthKey ta) = true := by
      rw [hm]
      simp
    simp only [List.filter_cons, h1, h2, if_true, List.filter_nil, List.map_cons,
      List.map_nil]
    simp [pySetSize, pyMemB, hid]
  refine ⟨MonthlyTopic.mk (monthKey ta)
      ((monthTopKeywords (" ".intercalate (userTexts a ++ userTexts b))).take 3)
      (pySetSize ((([(monthKey ta, a.conversation_id),
        (monthKey tb, b.conversation_id)]).filter
          (fun q => q.1 == monthKey ta)).map (fun q => q.2))),
    ?_, hcount, rfl⟩
  unfold analyze_monthly_focus
  rw [hmt, hmap]
  rfl

/-- C8 (counterexample): two conversations in the same month (one day
apart) but with no user messages produce no `monthly_focus` entry at all,
so the claim's "exactly one entry with count 2" fails. -/
theorem c8_same_month_claimed_false :
    ¬ (∃ e, analyze_monthly_focus [emptyMappingConvA, emptyMappingConvB] = .ok [e]
        ∧ e.conversation_count = 2) := by
  rintro ⟨e, he, _⟩
  have h0 : analyze_monthly_focus [emptyMappingConvA, emptyMappingConvB]
      = .ok [] := rfl
  rw [h0] at he
  simp at he

/-- C8 (witness): a concrete same-month pair (timestamps one day apart,
distinct ids, one user text) with exactly one entry and count 2. -/
theorem c8_monthly_focus_witness :
    ∃ e, analyze_monthly_focus [monthWitnessConvA, monthWitnessConvB] = .ok [e]
      ∧ e.conversation_count = 2 ∧ e.month = monthKey 1700000000 :=
  c8_monthly_focus_amended monthWitnessConvA monthWitnessConvB 1700000000 1700086400
    (by rfl) (by rfl) (by decide) (Or.inl (by decide)) (by decide)

/-- `roundHalfEven` is the identity on integers. -/
lemma roundHalfEven_intCast (m : ℤ) : roundHalfEven (m : ℚ) = m := by
  unfold roundHalfEven
  rw [Int.floor_intCast]
  norm_num

/-- `round(n, 1)` of a whole number is itself. -/
lemma pyRound1_natCast (n : ℕ) : pyRound1 (n : ℚ) = n := by
  unfold pyRound1
  have h : ((n : ℚ) * 10) = ((n * 10 : ℤ) : ℚ) := by push_cast; ring
  rw [h, roundHalfEven_intCast]
  push_cast
  ring_nf

/-- C9: the English and Chinese keyword checks of one politeness category
are independent: a single user message containing both "please" and "请"
makes `please_count` 2, so `total_polite_usage` exceeds `total_messages`
and the percentage exceeds 100. -/
theorem c9_politeness_double_count (t : String)
    (hen : pyIn "please" (pyLower t) = true) (hzh : pyIn "请" (pyLower t) = true) :
    (analyze_politeness_score [singleUserTextConv t]).please_count = 2
    ∧ (analyze_politeness_score [singleUserTextConv t]).total_messages = 1
    ∧ (analyze_politeness_score [singleUserTextConv t]).total_messages
      < (analyze_politeness_score [singleUserTextConv t]).total_polite_usage
    ∧ 100 < (analyze_politeness_score [singleUserTextConv t]).politeness_percentage := by
  have ht : t.isEmpty = false := by
    by_contra hne
    rw [Bool.not_eq_false] at hne
    rw [(String.isEmpty_iff t).mp hne] at hen
    revert hen
    decide
  have htexts : politeTexts [singleUserTextConv t] = [pyLower t] := by
    simp [politeTexts, allMessages, convMessages, singleUserTextConv, roleOf,
      extract_text_from_message, pyTruthy, pyStr, ht]
  have hpc : (analyze_politeness_score [singleUserTextConv t]).please_count
      = ((politeTexts [singleUserTextConv t]).map (fun s =>
          (if pyIn "please" s then 1 else 0) + (if pyIn "请" s then 1 else 0))).sum := rfl
  have hpc2 : (analyze_politeness_score [singleUserTextConv t]).please_count = 2 := by
    rw [hpc, htexts]
    simp [hen, hzh]
  have htm : (analyze_politeness_score [singleUserTextConv t]).total_messages = 1 := by
    have h : (analyze_politeness_score [singleUserTextConv t]).total_messages
        = (politeTexts [singleUserTextConv t]).length := rfl
    rw [h, htexts]
    rfl
  have htp0 : (analyze_politeness_score [singleUserTextConv t]).total_polite_usage
      = (analyze_politeness_score [singleUserTextConv t]).please_count
        + (analyze_politeness_score [singleUserTextConv t]).thank_you_count
        + (analyze_politeness_score [singleUserTextConv t]).help_count := rfl
  have htp : 1 < (analyze_politeness_score [singleUserTextConv t]).total_polite_usage := by
    rw [htp0, hpc2]
    omega
  refine ⟨hpc2, htm, by rw [htm]; exact htp, ?_⟩
  have hf : (analyze_politeness_score [singleUserTextConv t]).politeness_percentage
      = (if 0 < (analyze_politeness_score [singleUserTextConv t]).total_messages
         then pyRound1
           (((analyze_politeness_score [singleUserTextConv t]).total_polite_usage : ℚ)
             / ((analyze_politeness_score [singleUserTextConv t]).total_messages : ℚ) * 100)
         else 0) := rfl
  rw [hf, htm, if_pos (by omega)]
  have hcast : (((analyze_politeness_score [singleUserTextConv t]).total_polite_usage : ℚ)
      / ((1 : ℕ) : ℚ) * 100)
      = (((analyze_politeness_score [singleUserTextConv t]).total_polite_usage * 100 : ℕ) : ℚ) := by
    push_cast
    ring
  rw [hcast, pyRound1_natCast]
  have h200 : 100 < (analyze_politeness_score [singleUserTextConv t]).total_polite_usage * 100 := by
    omega
  exact_mod_cast h200

/-- C9 (witness): the message "please 请" triggers both the English and the
Chinese please-check. -/
theorem c9_politeness_witness :
    (analyze_politeness_score [singleUserTextConv "please 请"]).please_count = 2
    ∧ (analyze_politeness_score [singleUserTextConv "please 请"]).total_messages = 1
    ∧ (analyze_politeness_score [singleUserTextConv "please 请"]).total_messages
      < (analyze_politeness_score [singleUserTextConv "please 请"]).total_polite_usage
    ∧ 100 < (analyze_politeness_score [singleUserTextConv "please 请"]).politeness_percentage :=
  c9_politeness_double_count "please 请" (by decide) (by decide)

/-- The message bag of an archive does not read `create_time`. -/
lemma allMessages_epoch_zero (pre post : List Conversation) (cid title : Option String)
    (mp : List (String × Node)) :
    allMessages (pre ++ (⟨cid, title, some (some 0), mp⟩ : Conversation) :: post)
      = allMessages (pre ++ (⟨cid, title, none, mp⟩ : Conversation) :: post) := by
  simp only [allMessages, List.map_append, List.map_cons]
  rfl

/-- A timestamp of exactly 0 contributes no truthy time, like an absent one. -/
lemma truthyTimes_epoch_zero (pre post : List Conversation) (cid title : Option String)
    (mp : List (String × Node)) :
    truthyTimes (pre ++ (⟨cid, title, some (some 0), mp⟩ : Conversation) :: post)
      = truthyTimes (pre ++ (⟨cid, title, none, mp⟩ : Conversation) :: post) := by
  simp only [truthyTimes, List.filterMap_append, List.filterMap_cons]
  rfl

/-- A timestamp of exactly 0 contributes no monthly grouping entry. -/
lemma monthTextPairs_epoch_zero (pre post : List Conversation) (cid title : Option String)
    (mp : List (String × Node)) :
    monthTextPairs (pre ++ (⟨cid, title, some (some 0), mp⟩ : Conversation) :: post)
      = monthTextPairs (pre ++ (⟨cid, title, none, mp⟩ : Conversation) :: post) := by
  simp only [monthTextPairs, List.filterMap_append, List.filterMap_cons]
  rfl

/-- The monthly recount sees `fromtimestamp(0)` for both a stored 0 and an
absent key (the `.get` default). -/
lemma mapME_epoch_zero (cid title : Option String) (mp : List (String × Node)) :
    ∀ pre post : List Conversation,
      mapME (pre ++ (⟨cid, title, some (some 0), mp⟩ : Conversation) :: post)
        = mapME (pre ++ (⟨cid, title, none, mp⟩ : Conversation) :: post) := by
  intro pre
  induction pre with
  | nil => intro post; rfl
  | cons c pre ih =>
    intro post
    show mapME (c :: (pre ++ _ :: post)) = mapME (c :: (pre ++ _ :: post))
    simp only [mapME]
    rw [ih post]

/-- C10: a conversation whose `create_time` equals exactly 0 (the Unix
epoch, a non-null timestamp) behaves in the basic-statistics, heatmap and
monthly-focus passes exactly as if the timestamp were absent: presence is
tested by truthiness. -/
theorem c10_epoch_zero_truthiness (pre post : List Conversation)
    (cid title : Option String) (mp : List (String × Node)) :
    analyze_summary_stats (pre ++ (⟨cid, title, some (some 0), mp⟩ : Conversation) :: post)
      = analyze_summary_stats (pre ++ (⟨cid, title, none, mp⟩ : Conversation) :: post)
    ∧ analyze_brain_activity_heatmap
        (pre ++ (⟨cid, title, some (some 0), mp⟩ : Conversation) :: post)
      = analyze_brain_activity_heatmap
        (pre ++ (⟨cid, title, none, mp⟩ : Conversation) :: post)
    ∧ analyze_monthly_focus (pre ++ (⟨cid, title, some (some 0), mp⟩ : Conversation) :: post)
      = analyze_monthly_focus (pre ++ (⟨cid, title, none, mp⟩ : Conversation) :: post) := by
  have hmsg := allMessages_epoch_zero pre post cid title mp
  have hts := truthyTimes_epoch_zero pre post cid title mp
  have hmtp := monthTextPairs_epoch_zero pre post cid title mp
  have hmap := mapME_epoch_zero cid title mp pre post
  have hlen : (pre ++ (⟨cid, title, some (some 0), mp⟩ : Conversation) :: post).length
      = (pre ++ (⟨cid, title, none, mp⟩ : Conversation) :: post).length := by simp
  refine ⟨?_, ?_, ?_⟩
  · unfold analyze_summary_stats
    rw [hmsg, hts, hlen]
  · have harr : heatmapArray (pre ++ (⟨cid, title, some (some 0), mp⟩ : Conversation) :: post)
        = heatmapArray (pre ++ (⟨cid, title, none, mp⟩ : Conversation) :: post) := by
      unfold heatmapArray
      rw [hts]
    unfold analyze_brain_activity_heatmap hourDistribution weekdayCounts
    rw [harr]
  · unfold analyze_monthly_focus monthly_texts
    rw [hmtp, hmap]
